import Mathlib

/-!
Shallow embedding of the cardiac monitor simulator (src/src/App.tsx).

JavaScript numbers are modelled as exact rationals (`ℚ`); `Math.random()`
is modelled as an explicit stream of draws threaded through the code in
call order; the transcendental functions `Math.exp`, `Math.sin`,
`Math.sqrt` and the constant `Math.PI` are abstracted as fields of a
`JSMath` record, since the claims under verification never depend on
their values.  `Float32Array` buffers are modelled as a length together
with an index-to-value map; an out-of-range write is a no-op, as it is
for a JS typed array.
-/

namespace CardiacSim

/-- The transcendental parts of the JS `Math` object, abstracted. -/
structure JSMath where
  exp : ℚ → ℚ
  sin : ℚ → ℚ
  sqrt : ℚ → ℚ
  pi : ℚ

/-- `const clamp = (v, lo, hi) => Math.max(lo, Math.min(hi, v));` -/
def clamp (v lo hi : ℚ) : ℚ := max lo (min hi v)

/-- `Math.floor` on a finite JS number. -/
def jfloor (x : ℚ) : ℤ := ⌊x⌋

/-- `Math.ceil` on a finite JS number. -/
def jceil (x : ℚ) : ℤ := ⌈x⌉

/-- `Math.round` on a finite JS number (round half towards +∞). -/
def jround (x : ℚ) : ℤ := ⌊x + 1/2⌋

/-- Truncation towards zero, as JS `%` uses. -/
def jtrunc (x : ℚ) : ℤ := if 0 ≤ x then ⌊x⌋ else ⌈x⌉

/-- The JS remainder operator `%` on numbers (truncated division). -/
def jsFmod (x y : ℚ) : ℚ := x - y * (jtrunc (x / y) : ℚ)

/-- The ambient `Math.random()` source: a stream of draws and a cursor. -/
structure Rng where
  s : ℕ → ℚ
  i : ℕ

/-- The value of the next `Math.random()` call. -/
def Rng.val (r : Rng) : ℚ := r.s r.i

/-- The generator state after one `Math.random()` call. -/
def Rng.next (r : Rng) : Rng := ⟨r.s, r.i + 1⟩

/-- `randRange(a, b)` applied to one draw `u`. -/
def randRangeVal (a b u : ℚ) : ℚ := a + u * (b - a)

/-- `jitter(base, frac)` applied to one draw `u`. -/
def jitterVal (base frac u : ℚ) : ℚ := base * (1 + randRangeVal (-frac) frac u)

/-- A `Float32Array` of length `n`, as an index-to-value map. -/
structure Buf where
  n : ℕ
  val : ℕ → ℚ

/-- `new Float32Array(samples)`: all zeroes. -/
def Buf.zeros (n : ℕ) : Buf := ⟨n, fun _ => 0⟩

/-- A typed-array store `arr[i] = v`; out-of-range writes are dropped. -/
def Buf.store (b : Buf) (i : ℕ) (v : ℚ) : Buf :=
  ⟨b.n, fun j => if j = i ∧ i < b.n then v else b.val j⟩

-- Canvas / ECG rendering constants
def SAMPLE_RATE : ℚ := 500
def BUFFER_SECONDS : ℚ := 180

/-- `addGaussian(arr, centerIdx, amplitude, sigmaSamples)` from
src/src/App.tsx: the loop `for (i = start; i <= end; i++)` adds
`amplitude * Math.exp(-0.5 * x * x)`, `x = (i - centerIdx)/sigmaSamples`,
to each index of `[max(0, ⌊c − 4σ⌋), min(len − 1, ⌈c + 4σ⌉)]`.
(`end` is a Lean keyword, so the loop's upper bound is named `stop`.) -/
def addGaussian (M : JSMath) (arr : Buf) (centerIdx amplitude sigmaSamples : ℚ) :
    Buf :=
  let start : ℤ := max 0 (jfloor (centerIdx - 4 * sigmaSamples))
  let stop : ℤ := min ((arr.n : ℤ) - 1) (jceil (centerIdx + 4 * sigmaSamples))
  ⟨arr.n, fun i =>
    if start ≤ (i : ℤ) ∧ (i : ℤ) ≤ stop then
      let x := ((i : ℚ) - centerIdx) / sigmaSamples
      arr.val i + amplitude * M.exp (-0.5 * x * x)
    else arr.val i⟩

-- Playback clock (the `draw` callback in src/src/App.tsx).

/-- `scroll.current = (scroll.current + dt * SAMPLE_RATE) % buffer.length`. -/
def advanceScroll (scroll dt : ℚ) (len : ℕ) : ℚ :=
  jsFmod (scroll + dt * SAMPLE_RATE) (len : ℚ)

/-- `const startIdx = Math.floor(scroll.current) % buffer.length`
(JS `%` on non-negative integer values is the integer remainder). -/
def drawStartIdx (scroll : ℚ) (len : ℕ) : ℤ :=
  jfloor scroll % (len : ℤ)

/-- `const idx = (startIdx + sampleOffset) % buffer.length` inside the
window-extraction loop over display columns. -/
def drawSampleIdx (startIdx : ℤ) (sampleOffset : ℕ) (len : ℕ) : ℤ :=
  (startIdx + (sampleOffset : ℤ)) % (len : ℤ)

-- Rhythm IDs (the `RHY` table).
inductive RhythmId where
  | sinus
  | svt
  | afib_rvr
  | vt_pulse
  | pvt
  | vf
  | asystole
  | pea_narrow
deriving DecidableEq, Repr

/-- The result record of `handleShock`. -/
structure ShockResult where
  appropriate : Bool
  converted : Bool
  message : String
  nextRhythm : RhythmId
deriving DecidableEq, Repr

/-- `handleShock(rhythm, energyJ, syncMode)` from src/src/App.tsx, with the
single `Math.random()` draw each branch makes passed in as `u`. -/
def handleShock (rhythm : RhythmId) (energyJ : ℚ) (syncMode : Bool) (u : ℚ) :
    ShockResult :=
  let e := max 0 (min 360 energyJ)
  if rhythm = .vf ∨ rhythm = .pvt then
    -- Defibrillation
    let appropriate := !syncMode || true  -- sync markers irrelevant in VF
    let p := max 0.15 (min 0.88 ((e - 80) / 160))
    let converted : Bool := if u < p then true else false
    { appropriate := appropriate, converted := converted,
      message := cond converted
        ("Defibrillation at " ++ toString e ++ "J converted the rhythm → Normal Sinus.")
        ("Shock at " ++ toString e ++ "J unsuccessful. Continue high-quality CPR and escalate energy."),
      nextRhythm := cond converted .sinus rhythm }
  else if rhythm = .svt then
    if syncMode then
      let p := max 0.4 (min 0.95 ((e - 40) / 120))
      let converted : Bool := if u < p then true else false
      { appropriate := true, converted := converted,
        message := cond converted
          ("Synchronized cardioversion at " ++ toString e ++ "J successful → Normal Sinus.")
          ("Cardioversion at " ++ toString e ++ "J failed. Consider higher energy or alternative maneuvers."),
        nextRhythm := cond converted .sinus .svt }
    else
      -- small risk of deterioration
      if u < 0.08 then
        { appropriate := false, converted := false,
          message := "Unsynchronized shock delivered in SVT → degenerated to VF. Begin defibrillation.",
          nextRhythm := .vf }
      else
        { appropriate := false, converted := false,
          message := "Unsynchronized shock in SVT is inappropriate. No conversion.",
          nextRhythm := .svt }
  else if rhythm = .afib_rvr then
    if syncMode then
      let p := max 0.35 (min 0.85 ((e - 90) / 160))
      let converted : Bool := if u < p then true else false
      { appropriate := true, converted := converted,
        message := cond converted
          ("Synchronized cardioversion at " ++ toString e ++ "J → Normal Sinus.")
          ("Cardioversion at " ++ toString e ++ "J failed. Consider higher energy or repeat."),
        nextRhythm := cond converted .sinus .afib_rvr }
    else
      if u < 0.06 then
        { appropriate := false, converted := false,
          message := "Unsynchronized shock in AF with RVR → degenerated to VF.",
          nextRhythm := .vf }
      else
        { appropriate := false, converted := false,
          message := "Unsynchronized shock in AF is inappropriate.",
          nextRhythm := .afib_rvr }
  else if rhythm = .vt_pulse then
    if syncMode then
      let p := max 0.35 (min 0.9 ((e - 80) / 160))
      let converted : Bool := if u < p then true else false
      { appropriate := true, converted := converted,
        message := cond converted
          ("Synchronized cardioversion at " ++ toString e ++ "J → Normal Sinus.")
          ("Cardioversion at " ++ toString e ++ "J failed. Increase energy or reattempt."),
        nextRhythm := cond converted .sinus .vt_pulse }
    else
      if u < 0.12 then
        { appropriate := false, converted := false,
          message := "Unsynchronized shock in VT with a pulse → degenerated to VF.",
          nextRhythm := .vf }
      else
        { appropriate := false, converted := false,
          message := "Unsynchronized shock in VT with pulse is inappropriate.",
          nextRhythm := .vt_pulse }
  else if rhythm = .asystole ∨ rhythm = .pea_narrow ∨ rhythm = .sinus then
    { appropriate := false, converted := false,
      message := "Not a shockable rhythm. Focus on high-quality CPR/epinephrine & reversible causes.",
      nextRhythm := rhythm }
  else
    { appropriate := false, converted := false, message := "", nextRhythm := rhythm }

/-- The clamped linear conversion-probability ramp for defibrillation
(VF / pulseless VT), as a function of the raw energy setting. -/
def defibP (energyJ : ℚ) : ℚ :=
  clamp ((max 0 (min 360 energyJ) - 80) / 160) 0.15 0.88

/-- A concrete stand-in for the abstracted `Math` transcendentals, used
only to instantiate closed statements (the real `Math.exp` is everywhere
positive, which is all the counterexample needs). -/
def mathStub : JSMath := ⟨fun _ => 1, fun _ => 0, fun _ => 0, 3.141592653589793⟩

/-- A concrete 12-sample buffer of zeroes, probed by the `addGaussian`
counterexample. -/
def gaussProbe : Buf := ⟨12, fun _ => 0⟩

/-- The result record of a waveform generator: the sample buffer and the
`rPeaks` depolarization-mark indices. -/
structure GeneratedBuffer where
  buffer : Buf
  rPeaks : List ℤ

/-- One beat's instantaneous heart rate in `generateRegularECG`:
`clamp(jitter(baseHr, 0.03), 45, 190)` for the draw `u`. -/
def regBeatHr (baseHr u : ℚ) : ℚ := clamp (jitterVal baseHr 0.03 u) 45 190

/-- The per-beat `while (tSec * SAMPLE_RATE < samples)` loop of
`generateRegularECG`: each iteration draws the beat's heart rate, PR, QRS
and amplitude jitters, places the P / Q-R-S / T Gaussians, records the R
index, and advances `tSec` by the cycle. -/
def regularBeats (M : JSMath) (samples : ℕ) (baseHr qrsWidthMs : ℚ)
    (showP showT : Bool) (baseAmp prMin prMax : ℚ)
    (arr : Buf) (tSec : ℚ) (r : Rng) : Buf × List ℤ × Rng :=
  if h : tSec * SAMPLE_RATE < (samples : ℚ) then
    let beatHr := regBeatHr baseHr r.val
    let r1 := r.next
    let cycleSec := 60 / beatHr
    let base : ℤ := jfloor (tSec * SAMPLE_RATE)
    -- Intervals (ms)
    let prMs := clamp (randRangeVal prMin prMax r1.val) 80 260
    let r2 := r1.next
    let qrsMs := clamp (jitterVal qrsWidthMs 0.08 r2.val) 50 160
    let r3 := r2.next
    let qtMs := clamp (400 * M.sqrt (60 / beatHr)) 280 460
    -- Amplitudes
    let amp := jitterVal baseAmp 0.06 r3.val
    let r4 := r3.next
    let pAmp := 0.14 * amp
    let rAmp := 1.05 * amp
    let sAmp := -0.25 * amp
    let qAmp := -0.12 * amp
    let tAmp := 0.32 * amp
    -- Convert ms to samples
    let prS : ℤ := jfloor (prMs / 1000 * SAMPLE_RATE)
    let qrsS : ℤ := jfloor (qrsMs / 1000 * SAMPLE_RATE)
    let qtS : ℤ := jfloor (qtMs / 1000 * SAMPLE_RATE)
    -- Centers
    let pCenter : ℤ := base + max 6 (jfloor ((prS : ℚ) * 0.55))
    let qrsCenter : ℤ := base + prS
    let tCenter : ℤ := base + prS + jfloor ((qtS : ℚ) * 0.65)
    -- P wave
    let arr1 := if showP then
        addGaussian M arr (pCenter : ℚ) pAmp ((max 3 (jfloor ((qrsS : ℚ) * 0.35)) : ℤ) : ℚ)
      else arr
    -- QRS complex
    let arr2 := addGaussian M arr1 ((qrsCenter : ℚ) - (jfloor ((qrsS : ℚ) * 0.35) : ℚ)) qAmp
      ((max 2 (jfloor ((qrsS : ℚ) * 0.28)) : ℤ) : ℚ)
    let arr3 := addGaussian M arr2 (qrsCenter : ℚ) rAmp
      ((max 3 (jfloor ((qrsS : ℚ) * 0.55)) : ℤ) : ℚ)
    let arr4 := addGaussian M arr3 ((qrsCenter : ℚ) + (jfloor ((qrsS : ℚ) * 0.35) : ℚ)) sAmp
      ((max 2 (jfloor ((qrsS : ℚ) * 0.32)) : ℤ) : ℚ)
    -- T wave
    let arr5 := if showT then
        addGaussian M arr4 (tCenter : ℚ) tAmp ((max 6 (jfloor ((qtS : ℚ) * 0.22)) : ℤ) : ℚ)
      else arr4
    let rest := regularBeats M samples baseHr qrsWidthMs showP showT baseAmp prMin prMax
      arr5 (tSec + cycleSec) r4
    (rest.1, qrsCenter :: rest.2.1, rest.2.2)
  else (arr, [], r)
termination_by ((samples : ℤ) - jfloor (tSec * SAMPLE_RATE)).toNat
decreasing_by
  have hb1 : (45 : ℚ) ≤ regBeatHr baseHr r.val := le_max_left _ _
  have hb2 : regBeatHr baseHr r.val ≤ 190 := max_le (by norm_num) (min_le_left _ _)
  have hbpos : (0 : ℚ) < regBeatHr baseHr r.val := lt_of_lt_of_le (by norm_num) hb1
  have hcyc : (60 : ℚ) / 190 ≤ 60 / regBeatHr baseHr r.val := by
    rw [div_le_div_iff (by norm_num) hbpos]
    linarith
  have hfl : jfloor (tSec * SAMPLE_RATE) < (samples : ℤ) := by
    rw [jfloor, Int.floor_lt]
    exact_mod_cast h
  have hstep : jfloor (tSec * SAMPLE_RATE) + 157 ≤
      jfloor ((tSec + 60 / regBeatHr baseHr r.val) * SAMPLE_RATE) := by
    rw [jfloor, jfloor, Int.le_floor]
    have h1 : (⌊tSec * SAMPLE_RATE⌋ : ℚ) ≤ tSec * SAMPLE_RATE := Int.floor_le _
    have h2 : (60 : ℚ) / 190 * SAMPLE_RATE ≤ 60 / regBeatHr baseHr r.val * SAMPLE_RATE := by
      have : (0 : ℚ) ≤ SAMPLE_RATE := by norm_num [SAMPLE_RATE]
      exact mul_le_mul_of_nonneg_right hcyc this
    have h3 : (157 : ℚ) ≤ 60 / 190 * SAMPLE_RATE := by norm_num [SAMPLE_RATE]
    push_cast
    have hdistrib : (tSec + 60 / regBeatHr baseHr r.val) * SAMPLE_RATE =
        tSec * SAMPLE_RATE + 60 / regBeatHr baseHr r.val * SAMPLE_RATE := by ring
    rw [hdistrib]
    linarith
  omega

/-- The baseline-noise-and-drift loop at the end of
`generateRegularECG`: every 800th sample re-perturbs the drift
(two draws), then every sample gets `drift * 0.002` plus uniform noise. -/
def regNoise (samples : ℕ) (arr : Buf) (drift : ℚ) (r : Rng) (i : ℕ) : Buf × Rng :=
  if h : i < samples then
    let upd :=
      if i % 800 = 0 then
        (clamp (jitterVal drift 0.2 r.val + randRangeVal (-0.02) 0.02 r.next.val)
          (-0.2) 0.2, r.next.next)
      else (drift, r)
    let drift1 := upd.1
    let r1 := upd.2
    let arr1 := arr.store i
      (arr.val i + (drift1 * 0.002 + randRangeVal (-0.02) 0.02 r1.val))
    regNoise samples arr1 drift1 r1.next (i + 1)
  else (arr, r)
termination_by samples - i

/-- `generateRegularECG(seconds, hr, qrsWidthMs, opts)`; the `opts` record
is expanded into explicit parameters, with the source's defaults supplied
at each call site. -/
def generateRegularECG (M : JSMath) (seconds hr qrsWidthMs : ℚ)
    (pWave tWave : Bool) (amp prMsMin prMsMax : ℚ) (r : Rng) :
    GeneratedBuffer × Rng :=
  let samples := (jfloor (seconds * SAMPLE_RATE)).toNat
  let arr := Buf.zeros samples
  let loop := regularBeats M samples hr qrsWidthMs pWave tWave amp prMsMin prMsMax arr 0 r
  let noise := regNoise samples loop.1 0 loop.2.2 0
  ({ buffer := noise.1, rPeaks := loop.2.1 }, noise.2)

/-- The fibrillatory-baseline loop of `generateAfibRvr`: a 5–8 Hz small
sine plus noise over the whole buffer. -/
def afibBaseline (M : JSMath) (samples : ℕ) (fHz : ℚ) (arr : Buf) (r : Rng)
    (i : ℕ) : Buf × Rng :=
  if h : i < samples then
    let t := (i : ℚ) / SAMPLE_RATE
    let arr1 := arr.store i
      (arr.val i + (0.08 * M.sin (2 * M.pi * fHz * t) + randRangeVal (-0.03) 0.03 r.val))
    afibBaseline M samples fHz arr1 r.next (i + 1)
  else (arr, r)
termination_by samples - i

/-- The irregular R-R beat loop of `generateAfibRvr`: each iteration draws
an independent R-R interval clamped to `[0.28, 1.1]` s, places a QRS
triplet and a modest T pulse, and records the R index. -/
def afibBeats (M : JSMath) (samples : ℕ) (meanRR : ℚ) (arr : Buf) (t : ℚ)
    (r : Rng) : Buf × List ℤ × Rng :=
  if h : t * SAMPLE_RATE < (samples : ℚ) then
    let rr := clamp (randRangeVal (meanRR - 0.22) (meanRR + 0.22) r.val) 0.28 1.1
    let r1 := r.next
    let rIndex : ℤ := jfloor (t * SAMPLE_RATE)
    let qrsS : ℤ := jfloor (randRangeVal 70 100 r1.val / 1000 * SAMPLE_RATE)
    let r2 := r1.next
    let arr1 := addGaussian M arr ((rIndex : ℚ) - (jfloor ((qrsS : ℚ) * 0.35) : ℚ)) (-0.12)
      ((max 2 (jfloor ((qrsS : ℚ) * 0.3)) : ℤ) : ℚ)
    let arr2 := addGaussian M arr1 (rIndex : ℚ) (randRangeVal 0.8 1.0 r2.val)
      ((max 3 (jfloor ((qrsS : ℚ) * 0.55)) : ℤ) : ℚ)
    let r3 := r2.next
    let arr3 := addGaussian M arr2 ((rIndex : ℚ) + (jfloor ((qrsS : ℚ) * 0.35) : ℚ)) (-0.2)
      ((max 2 (jfloor ((qrsS : ℚ) * 0.32)) : ℤ) : ℚ)
    -- Modest T
    let arr4 := addGaussian M arr3 ((rIndex : ℚ) + (jfloor (0.22 * SAMPLE_RATE) : ℚ)) 0.25 20
    let rest := afibBeats M samples meanRR arr4 (t + rr) r3
    (rest.1, rIndex :: rest.2.1, rest.2.2)
  else (arr, [], r)
termination_by ((samples : ℤ) - jfloor (t * SAMPLE_RATE)).toNat
decreasing_by
  have hrr : (0.28 : ℚ) ≤ clamp (randRangeVal (meanRR - 0.22) (meanRR + 0.22) r.val) 0.28 1.1 :=
    le_max_left _ _
  have hfl : jfloor (t * SAMPLE_RATE) < (samples : ℤ) := by
    rw [jfloor, Int.floor_lt]
    exact_mod_cast h
  have hstep : jfloor (t * SAMPLE_RATE) + 140 ≤
      jfloor ((t + clamp (randRangeVal (meanRR - 0.22) (meanRR + 0.22) r.val) 0.28 1.1) *
        SAMPLE_RATE) := by
    rw [jfloor, jfloor, Int.le_floor]
    have h1 : (⌊t * SAMPLE_RATE⌋ : ℚ) ≤ t * SAMPLE_RATE := Int.floor_le _
    have h2 : (0.28 : ℚ) * SAMPLE_RATE ≤
        clamp (randRangeVal (meanRR - 0.22) (meanRR + 0.22) r.val) 0.28 1.1 * SAMPLE_RATE := by
      have : (0 : ℚ) ≤ SAMPLE_RATE := by norm_num [SAMPLE_RATE]
      exact mul_le_mul_of_nonneg_right hrr this
    have h3 : (140 : ℚ) ≤ 0.28 * SAMPLE_RATE := by norm_num [SAMPLE_RATE]
    push_cast
    have hdistrib : (t + clamp (randRangeVal (meanRR - 0.22) (meanRR + 0.22) r.val) 0.28 1.1) *
        SAMPLE_RATE = t * SAMPLE_RATE +
          clamp (randRangeVal (meanRR - 0.22) (meanRR + 0.22) r.val) 0.28 1.1 * SAMPLE_RATE := by
      ring
    rw [hdistrib]
    linarith
  omega

/-- `generateAfibRvr(seconds, meanHr)`: fibrillatory baseline first, then
memoryless irregular beats. -/
def generateAfibRvr (M : JSMath) (seconds meanHr : ℚ) (r : Rng) :
    GeneratedBuffer × Rng :=
  let samples := (jfloor (seconds * SAMPLE_RATE)).toNat
  let arr := Buf.zeros samples
  let fHz := randRangeVal 5 8 r.val
  let r1 := r.next
  let base := afibBaseline M samples fHz arr r1 0
  let meanRR := 60 / meanHr
  let beats := afibBeats M samples meanRR base.1 0 base.2
  ({ buffer := beats.1, rPeaks := beats.2.1 }, beats.2.2)

/-- The frequency/amplitude state of the three VF sinusoids. -/
structure VFState where
  f1 : ℚ
  f2 : ℚ
  f3 : ℚ
  a1 : ℚ
  a2 : ℚ
  a3 : ℚ

/-- The per-sample loop of `generateVF`: every 500th sample lets
frequencies and amplitudes take a bounded random step, then each sample is
the sum of the three sinusoids plus noise. -/
def vfLoop (M : JSMath) (samples : ℕ) (phi1 phi2 phi3 : ℚ) (st : VFState)
    (arr : Buf) (r : Rng) (i : ℕ) : Buf × Rng :=
  if h : i < samples then
    let t := (i : ℚ) / SAMPLE_RATE
    -- slowly wander frequencies & amplitudes
    let upd :=
      if i % 500 = 0 then
        let f1 := jitterVal st.f1 0.05 r.val
        let r1 := r.next
        let f2 := jitterVal st.f2 0.05 r1.val
        let r2 := r1.next
        let f3 := jitterVal st.f3 0.05 r2.val
        let r3 := r2.next
        let a1 := max 0.3 (min 1.1 (jitterVal st.a1 0.08 r3.val))
        let r4 := r3.next
        let a2 := max 0.1 (min 0.8 (jitterVal st.a2 0.1 r4.val))
        let r5 := r4.next
        let a3 := max 0.05 (min 0.6 (jitterVal st.a3 0.12 r5.val))
        ((⟨f1, f2, f3, a1, a2, a3⟩ : VFState), r5.next)
      else (st, r)
    let st1 := upd.1
    let r1 := upd.2
    let v := st1.a1 * M.sin (2 * M.pi * st1.f1 * t + phi1) +
        st1.a2 * M.sin (2 * M.pi * st1.f2 * t + phi2) +
        st1.a3 * M.sin (2 * M.pi * st1.f3 * t + phi3) +
        randRangeVal (-0.05) 0.05 r1.val
    let arr1 := arr.store i v
    vfLoop M samples phi1 phi2 phi3 st1 arr1 r1.next (i + 1)
  else (arr, r)
termination_by samples - i

/-- `generateVF(seconds)`: chaotic sum of three wandering sinusoids; no
depolarization marks. -/
def generateVF (M : JSMath) (seconds : ℚ) (r : Rng) : GeneratedBuffer × Rng :=
  let samples := (jfloor (seconds * SAMPLE_RATE)).toNat
  let arr := Buf.zeros samples
  let f1 := randRangeVal 3 6 r.val
  let r1 := r.next
  let f2 := randRangeVal 6 9 r1.val
  let r2 := r1.next
  let f3 := randRangeVal 9 12 r2.val
  let r3 := r2.next
  let a1 := randRangeVal 0.5 1.0 r3.val
  let r4 := r3.next
  let a2 := randRangeVal 0.2 0.6 r4.val
  let r5 := r4.next
  let a3 := randRangeVal 0.1 0.4 r5.val
  let r6 := r5.next
  let phi1 := r6.val * M.pi * 2
  let r7 := r6.next
  let phi2 := r7.val * M.pi * 2
  let r8 := r7.next
  let phi3 := r8.val * M.pi * 2
  let r9 := r8.next
  let loop := vfLoop M samples phi1 phi2 phi3 ⟨f1, f2, f3, a1, a2, a3⟩ arr r9 0
  ({ buffer := loop.1, rPeaks := [] }, loop.2)

/-- `const cycleSamples = Math.max(20, Math.floor(cycleSec * SAMPLE_RATE))`
with `cycleSec = 60 / hr`, in `generateVT`. -/
def vtCycleSamples (hr : ℚ) : ℤ := max 20 (jfloor (60 / hr * SAMPLE_RATE))

/-- The per-cycle loop of `generateVT`: each cycle places a wide QRS
triplet (a capture/fusion beat when due and the coin flip lands), a small
T pulse, and records the rounded R center.  The clamp `cycleSamples ≥ 20`
(hypothesis `hcs`) is what makes the loop terminate. -/
def vtLoop (M : JSMath) (samples : ℕ) (cycleSamples : ℤ)
    (hcs : 20 ≤ cycleSamples) (captureEvery : ℤ) (arr : Buf) (r : Rng)
    (k : ℕ) : Buf × List ℤ × Rng :=
  if h : (k : ℤ) * cycleSamples < (samples : ℤ) then
    let base : ℚ := (((k : ℤ) * cycleSamples : ℤ) : ℚ)
    let center : ℚ := base + 0.32 * (cycleSamples : ℚ)
    let cap :=
      if (k : ℤ) % captureEvery = 0 then
        ((if r.val < 0.5 then true else false), r.next)
      else (false, r)
    let isCapture := cap.1
    let r1 := cap.2
    let wideScale : ℚ := cond isCapture 0.5 1.0
    let rh :=
      if isCapture then ((0.85 : ℚ), r1)
      else (randRangeVal 0.9 1.2 r1.val, r1.next)
    let rHeight := rh.1
    let r2 := rh.2
    let arr1 := addGaussian M arr (center - 12 * wideScale) (-0.18)
      ((max 4 (jfloor (6 * wideScale)) : ℤ) : ℚ)
    let arr2 := addGaussian M arr1 center rHeight ((jfloor (18 * wideScale) : ℤ) : ℚ)
    let arr3 := addGaussian M arr2 (center + 12 * wideScale) (-0.28)
      ((max 4 (jfloor (7 * wideScale)) : ℤ) : ℚ)
    -- overlay narrow spike suggesting capture/fusion
    let arr4 := if isCapture then addGaussian M arr3 (center - 2) 0.6 4 else arr3
    let arr5 := addGaussian M arr4 (base + 0.62 * (cycleSamples : ℚ)) 0.15 22
    let rest := vtLoop M samples cycleSamples hcs captureEvery arr5 r2 (k + 1)
    (rest.1, jround center :: rest.2.1, rest.2.2)
  else (arr, [], r)
termination_by ((samples : ℤ) - (k : ℤ) * cycleSamples).toNat
decreasing_by
  have hmul : (((k + 1 : ℕ)) : ℤ) * cycleSamples = (k : ℤ) * cycleSamples + cycleSamples := by
    push_cast
    ring
  omega

/-- The trailing noise loop of `generateVT`. -/
def vtNoise (samples : ℕ) (arr : Buf) (r : Rng) (i : ℕ) : Buf × Rng :=
  if h : i < samples then
    vtNoise samples (arr.store i (arr.val i + randRangeVal (-0.02) 0.02 r.val)) r.next (i + 1)
  else (arr, r)
termination_by samples - i

/-- `generateVT(seconds, hr)`: monomorphic wide-complex cycles at a fixed
rate, with occasional capture/fusion beats. -/
def generateVT (M : JSMath) (seconds hr : ℚ) (r : Rng) : GeneratedBuffer × Rng :=
  let samples := (jfloor (seconds * SAMPLE_RATE)).toNat
  let arr := Buf.zeros samples
  -- Occasionally insert capture/fusion beats
  let captureEvery : ℤ := max 6 (jfloor (randRangeVal 8 16 r.val))
  let r1 := r.next
  let loop := vtLoop M samples (vtCycleSamples hr) (le_max_left _ _) captureEvery arr r1 0
  let noise := vtNoise samples loop.1 loop.2.2 0
  ({ buffer := noise.1, rPeaks := loop.2.1 }, noise.2)

/-- The per-sample loop of `generateAsystole`: pure low-amplitude noise. -/
def asysLoop (samples : ℕ) (arr : Buf) (r : Rng) (i : ℕ) : Buf × Rng :=
  if h : i < samples then
    asysLoop samples (arr.store i (randRangeVal (-0.015) 0.015 r.val)) r.next (i + 1)
  else (arr, r)
termination_by samples - i

/-- `generateAsystole(seconds)`: noise only, no marks. -/
def generateAsystole (seconds : ℚ) (r : Rng) : GeneratedBuffer × Rng :=
  let samples := (jfloor (seconds * SAMPLE_RATE)).toNat
  let loop := asysLoop samples (Buf.zeros samples) r 0
  ({ buffer := loop.1, rPeaks := [] }, loop.2)

/-- `generatePEA_narrow(seconds, hr)`: sinus-brady morphology with reduced
amplitude. -/
def generatePEA_narrow (M : JSMath) (seconds hr : ℚ) (r : Rng) :
    GeneratedBuffer × Rng :=
  generateRegularECG M seconds hr 85 true true 0.85 140 220 r

/-- The retrograde-P post-pass of `generateSVT`: for each R peak, one coin
flip; on 0.3 probability overlay a small negative pulse after the R. -/
def svtRetro (M : JSMath) (arr : Buf) (peaks : List ℤ) (r : Rng) : Buf × Rng :=
  match peaks with
  | [] => (arr, r)
  | rp :: rest =>
    let arr1 :=
      if r.val < 0.3 then
        -- retrograde P just after QRS, small and often negative
        addGaussian M arr ((rp : ℚ) + (jfloor (0.06 * SAMPLE_RATE) : ℚ)) (-0.07) 8
      else arr
    svtRetro M arr1 rest r.next

/-- `generateSVT(seconds, hr)`: the regular generator with P waves off,
then the retrograde-P pass; the rPeaks of the base buffer are returned
unchanged. -/
def generateSVT (M : JSMath) (seconds hr : ℚ) (r : Rng) : GeneratedBuffer × Rng :=
  let base := generateRegularECG M seconds hr 80 false true 0.95 60 120 r
  let post := svtRetro M base.1.buffer base.1.rPeaks base.2
  ({ buffer := post.1, rPeaks := base.1.rPeaks }, post.2)

/-- `SCENARIOS[rhythm].generator()`: a fresh buffer for the rhythm, with
the ambient `Math.random()` stream threaded through in call order. -/
def synthesize (M : JSMath) (rhythm : RhythmId) (r : Rng) : GeneratedBuffer :=
  match rhythm with
  | .sinus =>
    (generateRegularECG M BUFFER_SECONDS (((70 + jfloor (randRangeVal (-8) 8 r.val)) : ℤ) : ℚ)
      85 true true 1.0 120 200 r.next).1
  | .svt =>
    (generateSVT M BUFFER_SECONDS ((jfloor (randRangeVal 160 210 r.val) : ℤ) : ℚ) r.next).1
  | .afib_rvr =>
    (generateAfibRvr M BUFFER_SECONDS (((140 + jfloor (randRangeVal (-20) 20 r.val)) : ℤ) : ℚ)
      r.next).1
  | .vt_pulse =>
    (generateVT M BUFFER_SECONDS ((jfloor (randRangeVal 150 185 r.val) : ℤ) : ℚ) r.next).1
  | .pvt => (generateVT M BUFFER_SECONDS 170 r).1
  | .vf => (generateVF M BUFFER_SECONDS r).1
  | .asystole => (generateAsystole BUFFER_SECONDS r).1
  | .pea_narrow => (generatePEA_narrow M BUFFER_SECONDS 50 r).1

/-- The everywhere-0.95 draw stream: its first draw makes the VT_PULSE
scenario pick `hr = Math.floor(150 + 0.95 * 35) = 183`. -/
def streamNinetyFive : Rng := ⟨fun _ => 19/20, 0⟩

/-- C2: for every energy value and both values of the synchronized flag,
`handleShock` on VF or PVT returns `appropriate = true`; the conversion
Bernoulli draw succeeds exactly when the uniform draw is below
`clamp((E−80)/160, 0.15, 0.88)` of the clamped energy `E`; and
`nextRhythm` is SINUS when converted and the input rhythm otherwise. -/
theorem defib_always_appropriate_conversion_ramp (energyJ u : ℚ) (syncMode : Bool) :
    ((handleShock .vf energyJ syncMode u).appropriate = true ∧
      ((handleShock .vf energyJ syncMode u).converted = true ↔ u < defibP energyJ) ∧
      (handleShock .vf energyJ syncMode u).nextRhythm =
        (if u < defibP energyJ then .sinus else .vf)) ∧
    ((handleShock .pvt energyJ syncMode u).appropriate = true ∧
      ((handleShock .pvt energyJ syncMode u).converted = true ↔ u < defibP energyJ) ∧
      (handleShock .pvt energyJ syncMode u).nextRhythm =
        (if u < defibP energyJ then .sinus else .pvt)) := by
  by_cases h : u < max 0.15 (min 0.88 ((max 0 (min 360 energyJ) - 80) / 160)) <;>
    simp [handleShock, defibP, clamp, h]

/-- C3: for every energy value and both values of the synchronized flag,
`handleShock` on SINUS, ASYSTOLE or PEA_NARROW returns
`appropriate = false`, `converted = false` and leaves the rhythm
unchanged. -/
theorem nonshockable_rhythm_unchanged (energyJ u : ℚ) (syncMode : Bool) :
    ((handleShock .sinus energyJ syncMode u).appropriate = false ∧
      (handleShock .sinus energyJ syncMode u).converted = false ∧
      (handleShock .sinus energyJ syncMode u).nextRhythm = .sinus) ∧
    ((handleShock .asystole energyJ syncMode u).appropriate = false ∧
      (handleShock .asystole energyJ syncMode u).converted = false ∧
      (handleShock .asystole energyJ syncMode u).nextRhythm = .asystole) ∧
    ((handleShock .pea_narrow energyJ syncMode u).appropriate = false ∧
      (handleShock .pea_narrow energyJ syncMode u).converted = false ∧
      (handleShock .pea_narrow energyJ syncMode u).nextRhythm = .pea_narrow) := by
  refine ⟨?_, ?_, ?_⟩ <;> simp [handleShock]

/-- C4: `handleShock` clamps the energy to [0, 360] before any use, so for
every rhythm, sync flag and random draw it returns the very same result
record as the call with the pre-clamped energy; in particular
`handleShock(VF, 1000, false)` equals `handleShock(VF, 360, false)`. -/
theorem shock_energy_clamped (rhythm : RhythmId) (energyJ u : ℚ) (syncMode : Bool) :
    handleShock rhythm energyJ syncMode u =
      handleShock rhythm (max 0 (min 360 energyJ)) syncMode u ∧
    handleShock .vf 1000 syncMode u = handleShock .vf 360 syncMode u := by
  constructor
  · have hm1 : (0 : ℚ) ≤ max 0 (min 360 energyJ) := le_max_left _ _
    have hm2 : max 0 (min 360 energyJ) ≤ 360 :=
      max_le (by norm_num) (min_le_left _ _)
    have he : max 0 (min 360 (max 0 (min 360 energyJ))) = max 0 (min 360 energyJ) := by
      rw [min_eq_right hm2, max_eq_right hm1]
    simp only [handleShock, he]
  · have : max 0 (min 360 (1000 : ℚ)) = max 0 (min 360 (360 : ℚ)) := by norm_num
    simp only [handleShock, this]

/-- C5: for every energy value, an unsynchronized `handleShock` on SVT is
never appropriate, never converts, and degrades to VF exactly when the
uniform draw is below 0.08 (so with probability 0.08), else stays SVT. -/
theorem svt_unsync_never_appropriate (energyJ u : ℚ) :
    (handleShock .svt energyJ false u).appropriate = false ∧
    (handleShock .svt energyJ false u).converted = false ∧
    (handleShock .svt energyJ false u).nextRhythm =
      (if u < 0.08 then .vf else .svt) := by
  by_cases h : u < (0.08 : ℚ) <;> simp [handleShock, h]

/-- C10: for every rhythm, energy, sync flag and random draw, a converted
result is appropriate and lands in SINUS, and the next rhythm is always
one of the input rhythm, SINUS or VF. -/
theorem shock_result_invariant (rhythm : RhythmId) (energyJ u : ℚ) (syncMode : Bool) :
    ((handleShock rhythm energyJ syncMode u).converted = true →
      (handleShock rhythm energyJ syncMode u).appropriate = true ∧
      (handleShock rhythm energyJ syncMode u).nextRhythm = .sinus) ∧
    ((handleShock rhythm energyJ syncMode u).nextRhythm = rhythm ∨
      (handleShock rhythm energyJ syncMode u).nextRhythm = .sinus ∨
      (handleShock rhythm energyJ syncMode u).nextRhythm = .vf) := by
  cases rhythm <;> cases syncMode <;>
    simp only [handleShock, eq_self_iff_true, reduceCtorEq, or_self, or_false,
      false_or, or_true, true_or, if_true, if_false] <;>
    first
      | (split_ifs <;> decide)
      | decide

/-- Closed instance of the C10 invariant at a concrete input. -/
theorem shock_result_invariant_witness :
    ((handleShock .svt 200 true (1/2)).converted = true →
      (handleShock .svt 200 true (1/2)).appropriate = true ∧
      (handleShock .svt 200 true (1/2)).nextRhythm = .sinus) ∧
    ((handleShock .svt 200 true (1/2)).nextRhythm = .svt ∨
      (handleShock .svt 200 true (1/2)).nextRhythm = .sinus ∨
      (handleShock .svt 200 true (1/2)).nextRhythm = .vf) :=
  shock_result_invariant .svt 200 (1/2) true

/-- C8 (amended): `addGaussian` adds exactly
`amplitude · exp(-0.5 · ((i - center)/sigma)²)` to each sample in the loop
window `[max(0, ⌊c − 4σ⌋), min(len − 1, ⌈c + 4σ⌉)]` — a window that
contains every in-range index within 4σ of the center but can extend up
to one extra sample past 4σ at each edge — leaves every sample outside
that window unchanged, and never writes outside `[0, len)` for any
center. -/
theorem addGaussian_window_exact (M : JSMath) (arr : Buf) (c A σ : ℚ) :
    (addGaussian M arr c A σ).n = arr.n ∧
    (∀ i : ℕ,
      max 0 (jfloor (c - 4 * σ)) ≤ (i : ℤ) ∧
        (i : ℤ) ≤ min ((arr.n : ℤ) - 1) (jceil (c + 4 * σ)) →
      (addGaussian M arr c A σ).val i =
        arr.val i + A * M.exp (-0.5 * (((i : ℚ) - c) / σ) * (((i : ℚ) - c) / σ))) ∧
    (∀ i : ℕ,
      ¬(max 0 (jfloor (c - 4 * σ)) ≤ (i : ℤ) ∧
          (i : ℤ) ≤ min ((arr.n : ℤ) - 1) (jceil (c + 4 * σ))) →
      (addGaussian M arr c A σ).val i = arr.val i) ∧
    (∀ i : ℕ, (i : ℤ) < (arr.n : ℤ) → |(i : ℚ) - c| ≤ 4 * σ →
      max 0 (jfloor (c - 4 * σ)) ≤ (i : ℤ) ∧
        (i : ℤ) ≤ min ((arr.n : ℤ) - 1) (jceil (c + 4 * σ))) ∧
    (∀ i : ℕ, (arr.n : ℤ) ≤ (i : ℤ) →
      (addGaussian M arr c A σ).val i = arr.val i) := by
  refine ⟨rfl, fun i h => ?_, fun i h => ?_, fun i hi habs => ?_, fun i hi => ?_⟩
  · simp only [addGaussian, if_pos h]
  · simp only [addGaussian, if_neg h]
  · have h1 : c - 4 * σ ≤ (i : ℚ) := by
      have := abs_le.mp habs
      linarith [this.2]
    have h2 : (i : ℚ) ≤ c + 4 * σ := by
      have := abs_le.mp habs
      linarith [this.1]
    refine ⟨max_le (by positivity) ?_, le_min (by omega) ?_⟩
    · have : (jfloor (c - 4 * σ) : ℚ) ≤ (i : ℚ) := le_trans (Int.floor_le _) h1
      exact_mod_cast this
    · have : ((i : ℤ) : ℚ) ≤ (jceil (c + 4 * σ) : ℚ) := by
        push_cast
        exact le_trans h2 (Int.le_ceil _)
      exact_mod_cast this
  · have : ¬(max 0 (jfloor (c - 4 * σ)) ≤ (i : ℤ) ∧
        (i : ℤ) ≤ min ((arr.n : ℤ) - 1) (jceil (c + 4 * σ))) := by
      rintro ⟨-, h2⟩
      have := le_trans h2 (min_le_left _ _)
      omega
    simp only [addGaussian, if_neg this]

/-- C8 counterexample: with `center = 6`, `sigma = 1.1` in a 12-sample
buffer, sample 1 lies below `center − 4σ = 1.6` (distance 5 > 4.4 from
the center), yet the code's floor-expanded loop window starts at
`⌊6 − 4.4⌋ = 1`, so sample 1 is modified — the claim as stated says every
sample outside 4σ of the center is left unchanged. -/
theorem addGaussian_beyond_four_sigma_written :
    (addGaussian mathStub gaussProbe 6 1 (11/10)).val 1 ≠ gaussProbe.val 1 ∧
    (1 : ℚ) < 6 - 4 * (11/10) := by
  constructor
  · have hf : jfloor ((6 : ℚ) - 4 * (11/10)) = 1 := by
      rw [show (6 : ℚ) - 4 * (11/10) = 8/5 by norm_num]
      rw [jfloor, Int.floor_eq_iff]
      norm_num
    have hc : jceil ((6 : ℚ) + 4 * (11/10)) = 11 := by
      rw [show (6 : ℚ) + 4 * (11/10) = 52/5 by norm_num]
      rw [jceil, Int.ceil_eq_iff]
      norm_num
    simp only [addGaussian, gaussProbe, mathStub, hf, hc]
    norm_num
  · norm_num

/-- C9: advancing the playback position by any non-negative elapsed time
(including more than one full buffer length) keeps the wrapped position
inside `[0, len)`, and every sample index the window-extraction loop
computes from it is an in-bounds buffer index. -/
theorem playback_wrap_in_bounds (scroll dt : ℚ) (len : ℕ)
    (hlen : 0 < len) (hdt : 0 ≤ dt) (hpos : 0 ≤ scroll ∧ scroll < (len : ℚ)) :
    (0 ≤ advanceScroll scroll dt len ∧ advanceScroll scroll dt len < (len : ℚ)) ∧
    (∀ sampleOffset : ℕ,
      0 ≤ drawSampleIdx (drawStartIdx (advanceScroll scroll dt len) len) sampleOffset len ∧
      drawSampleIdx (drawStartIdx (advanceScroll scroll dt len) len) sampleOffset len
        < (len : ℤ)) := by
  have hlenQ : (0 : ℚ) < (len : ℚ) := by exact_mod_cast hlen
  have hx : 0 ≤ scroll + dt * SAMPLE_RATE := by
    have : (0 : ℚ) ≤ dt * SAMPLE_RATE := by
      have : (0 : ℚ) ≤ SAMPLE_RATE := by norm_num [SAMPLE_RATE]
      positivity
    linarith [hpos.1]
  have hdiv : 0 ≤ (scroll + dt * SAMPLE_RATE) / (len : ℚ) := by positivity
  have hadv : advanceScroll scroll dt len =
      (len : ℚ) * Int.fract ((scroll + dt * SAMPLE_RATE) / (len : ℚ)) := by
    simp only [advanceScroll, jsFmod, jtrunc, if_pos hdiv, Int.fract]
    have hne : (len : ℚ) ≠ 0 := ne_of_gt hlenQ
    field_simp
  have hbounds : 0 ≤ advanceScroll scroll dt len ∧
      advanceScroll scroll dt len < (len : ℚ) := by
    rw [hadv]
    constructor
    · exact mul_nonneg (le_of_lt hlenQ) (Int.fract_nonneg _)
    · calc (len : ℚ) * Int.fract _ < (len : ℚ) * 1 := by
            exact mul_lt_mul_of_pos_left (Int.fract_lt_one _) hlenQ
        _ = (len : ℚ) := mul_one _
  refine ⟨hbounds, fun sampleOffset => ?_⟩
  have hlenZ : (len : ℤ) ≠ 0 := by exact_mod_cast Nat.pos_iff_ne_zero.mp hlen
  have hlenZpos : (0 : ℤ) < (len : ℤ) := by exact_mod_cast hlen
  exact ⟨Int.emod_nonneg _ hlenZ, Int.emod_lt_of_pos _ hlenZpos⟩

/-- Closed instance of C9: a tick of 400 s (more than one full 180 s
buffer) from position 250 wraps into bounds, and the window index at
offset 2999 is in bounds. -/
theorem playback_wrap_in_bounds_witness :
    (0 ≤ advanceScroll 250 400 90000 ∧
      advanceScroll 250 400 90000 < ((90000 : ℕ) : ℚ)) ∧
    (0 ≤ drawSampleIdx (drawStartIdx (advanceScroll 250 400 90000) 90000) 2999 90000 ∧
      drawSampleIdx (drawStartIdx (advanceScroll 250 400 90000) 90000) 2999 90000
        < ((90000 : ℕ) : ℤ)) := by
  have h := playback_wrap_in_bounds 250 400 90000 (by norm_num) (by norm_num)
    (by norm_num)
  exact ⟨h.1, h.2 2999⟩

-- Helper lemmas about the generator loops.

/-- `addGaussian` never changes the buffer length. -/
theorem addGaussian_n (M : JSMath) (arr : Buf) (c A σ : ℚ) :
    (addGaussian M arr c A σ).n = arr.n := rfl

/-- `Buf.store` never changes the buffer length. -/
theorem store_n (arr : Buf) (i : ℕ) (v : ℚ) : (arr.store i v).n = arr.n := rfl

/-- The VT cycle loop never changes the buffer length (by induction on the
loop's own fuel `samples − k · cycleSamples`). -/
theorem vtLoop_buf_n (μ : ℕ) :
    ∀ (M : JSMath) (samples : ℕ) (cs : ℤ) (hcs : 20 ≤ cs) (ce : ℤ)
      (arr : Buf) (r : Rng) (k : ℕ),
      ((samples : ℤ) - (k : ℤ) * cs).toNat ≤ μ →
      (vtLoop M samples cs hcs ce arr r k).1.n = arr.n := by
  induction μ with
  | zero =>
    intro M samples cs hcs ce arr r k hμ
    rw [vtLoop, dif_neg (by omega)]
  | succ μ ih =>
    intro M samples cs hcs ce arr r k hμ
    by_cases hg : (k : ℤ) * cs < (samples : ℤ)
    · rw [vtLoop, dif_pos hg]
      have hmul : ((k + 1 : ℕ) : ℤ) * cs = (k : ℤ) * cs + cs := by
        push_cast
        ring
      refine (ih M samples cs hcs ce _ _ (k + 1) (by omega)).trans ?_
      simp only [addGaussian_n, apply_ite Buf.n, ite_self]
    · rw [vtLoop, dif_neg hg]

/-- The VT noise loop never changes the buffer length. -/
theorem vtNoise_buf_n (μ : ℕ) :
    ∀ (samples : ℕ) (arr : Buf) (r : Rng) (i : ℕ), samples - i ≤ μ →
      (vtNoise samples arr r i).1.n = arr.n := by
  induction μ with
  | zero =>
    intro samples arr r i hμ
    rw [vtNoise, dif_neg (by omega)]
  | succ μ ih =>
    intro samples arr r i hμ
    by_cases hg : i < samples
    · rw [vtNoise, dif_pos hg]
      exact (ih samples _ _ (i + 1) (by omega)).trans rfl
    · rw [vtNoise, dif_neg hg]

/-- With 163-sample cycles in a 90000-sample buffer, every VT cycle loop
started at `k ≤ 552` eventually records the mark
`round(552 · 163 + 0.32 · 163) = 90028`. -/
theorem vtLoop_mark_overflow (n : ℕ) :
    ∀ (k : ℕ), k ≤ 552 → 552 - k ≤ n →
    ∀ (M : JSMath) (samples : ℕ) (cs : ℤ) (hcs : 20 ≤ cs) (ce : ℤ)
      (arr : Buf) (r : Rng),
      samples = 90000 → cs = 163 →
      (90028 : ℤ) ∈ (vtLoop M samples cs hcs ce arr r k).2.1 := by
  induction n with
  | zero =>
    intro k hk hn M samples cs hcs ce arr r hsamp h163
    subst hsamp h163
    have hk552 : k = 552 := by omega
    subst hk552
    rw [vtLoop, dif_pos (by norm_num)]
    refine List.mem_cons.mpr (Or.inl ?_)
    symm
    rw [jround, Int.floor_eq_iff]
    norm_num
  | succ n ih =>
    intro k hk hn M samples cs hcs ce arr r hsamp h163
    by_cases hk552 : k = 552
    · exact ih k hk (by omega) M samples cs hcs ce arr r hsamp h163
    · subst hsamp h163
      have hguard : (k : ℤ) * 163 < ((90000 : ℕ) : ℤ) := by
        have : (k : ℤ) ≤ 551 := by omega
        push_cast
        nlinarith
      rw [vtLoop, dif_pos hguard]
      exact List.mem_cons_of_mem _
        (ih (k + 1) (by omega) (by omega) M 90000 163 hcs ce _ _ rfl rfl)

/-- The buffer produced by `generateVT` always has
`Math.floor(seconds * SAMPLE_RATE)` samples. -/
theorem generateVT_buffer_n (M : JSMath) (seconds hr : ℚ) (r : Rng) :
    (generateVT M seconds hr r).1.buffer.n = (jfloor (seconds * SAMPLE_RATE)).toNat := by
  rw [generateVT]
  dsimp only
  refine (vtNoise_buf_n (jfloor (seconds * SAMPLE_RATE)).toNat _ _ _ 0 (by omega)).trans ?_
  exact (vtLoop_buf_n (jfloor (seconds * SAMPLE_RATE)).toNat M _ _ _ _ _ _ 0 (by simp)).trans rfl

/-- Whenever `generateVT` runs over a 90000-sample buffer with 163-sample
cycles, the recorded rPeaks contain `round(552 · 163 + 0.32 · 163) = 90028`,
one past the last valid index, whatever the random draws. -/
theorem generateVT_mark_overflow (M : JSMath) (seconds hr : ℚ) (r : Rng)
    (hsamp : (jfloor (seconds * SAMPLE_RATE)).toNat = 90000)
    (hvcs : vtCycleSamples hr = 163) :
    (90028 : ℤ) ∈ (generateVT M seconds hr r).1.rPeaks := by
  rw [generateVT]
  dsimp only
  exact vtLoop_mark_overflow 552 0 (by norm_num) (by norm_num) M _ _ _ _ _ _
    hsamp hvcs

/-- C1 (code bug): on the VT_PULSE scenario with rate draw 0.95 — so
`hr = Math.floor(150 + 0.95 · 35) = 183` and a cycle of
`max(20, ⌊(60/183)·500⌋) = 163` samples — `synthesize` returns a
90000-sample buffer whose `rPeaks` contain
`Math.round(552·163 + 0.32·163) = 90028`, an index outside
`[0, samples.length)`; the spec's invariant that all depolarization marks
are in bounds is violated (the loop records the last beat's R index
without clamping it to the buffer). -/
theorem synthesize_vtpulse_mark_out_of_bounds :
    (synthesize mathStub .vt_pulse streamNinetyFive).buffer.n = 90000 ∧
    (90028 : ℤ) ∈ (synthesize mathStub .vt_pulse streamNinetyFive).rPeaks ∧
    ¬ ((90028 : ℤ) < 90000) := by
  have hsamp : (jfloor (BUFFER_SECONDS * SAMPLE_RATE)).toNat = 90000 := by
    rw [show BUFFER_SECONDS * SAMPLE_RATE = ((90000 : ℤ) : ℚ) by
      norm_num [BUFFER_SECONDS, SAMPLE_RATE]]
    rw [jfloor, Int.floor_intCast]
    rfl
  have hfl : jfloor (randRangeVal 150 185 streamNinetyFive.val) = 183 := by
    rw [show randRangeVal 150 185 streamNinetyFive.val = 733 / 4 by
      norm_num [randRangeVal, streamNinetyFive, Rng.val]]
    rw [jfloor, Int.floor_eq_iff]
    norm_num
  have hvcs : vtCycleSamples ((183 : ℤ) : ℚ) = 163 := by
    have h163 : (⌊(10000 / 61 : ℚ)⌋ : ℤ) = 163 := by
      rw [Int.floor_eq_iff]
      norm_num
    rw [vtCycleSamples, show 60 / ((183 : ℤ) : ℚ) * SAMPLE_RATE = 10000 / 61 by
      push_cast
      norm_num [SAMPLE_RATE]]
    rw [jfloor, h163]
    norm_num
  refine ⟨?_, ?_, by norm_num⟩
  · show (generateVT mathStub BUFFER_SECONDS
        ((jfloor (randRangeVal 150 185 streamNinetyFive.val) : ℤ) : ℚ)
        streamNinetyFive.next).1.buffer.n = 90000
    exact (generateVT_buffer_n mathStub BUFFER_SECONDS _ streamNinetyFive.next).trans hsamp
  · show (90028 : ℤ) ∈ (generateVT mathStub BUFFER_SECONDS
        ((jfloor (randRangeVal 150 185 streamNinetyFive.val) : ℤ) : ℚ)
        streamNinetyFive.next).1.rPeaks
    rw [hfl]
    exact generateVT_mark_overflow mathStub BUFFER_SECONDS _ streamNinetyFive.next
      hsamp hvcs

-- C6 / C7 helpers: first-beat unfolding and beat-count bounds.

/-- The pre-generated buffer holds `⌊180 · 500⌋ = 90000` samples. -/
theorem bufferSamples_eq : (jfloor (BUFFER_SECONDS * SAMPLE_RATE)).toNat = 90000 := by
  rw [show BUFFER_SECONDS * SAMPLE_RATE = ((90000 : ℤ) : ℚ) by
    norm_num [BUFFER_SECONDS, SAMPLE_RATE]]
  rw [jfloor, Int.floor_intCast]
  rfl

/-- The clamped per-beat heart rate stays in `[45, 190]`, so each beat
cycle lasts at least `60/190 = 6/19` seconds (and the divisor is never
zero). -/
theorem regBeatHr_bounds (baseHr u : ℚ) :
    45 ≤ regBeatHr baseHr u ∧ regBeatHr baseHr u ≤ 190 ∧
      (6/19 : ℚ) ≤ 60 / regBeatHr baseHr u := by
  have h1 : (45 : ℚ) ≤ regBeatHr baseHr u := le_max_left _ _
  have h2 : regBeatHr baseHr u ≤ 190 := max_le (by norm_num) (min_le_left _ _)
  refine ⟨h1, h2, ?_⟩
  rw [div_le_div_iff (by norm_num) (by linarith)]
  linarith

/-- The VT cycle sample count is clamped to at least 20 for every rate. -/
theorem vtCycleSamples_ge (hr : ℚ) : 20 ≤ vtCycleSamples hr := le_max_left _ _

/-- A beat-loop step of at least `6/19` s strictly shrinks the regular
generator's remaining-sample measure. -/
theorem regularBeats_step (samples : ℕ) (tSec cyc : ℚ)
    (hg : tSec * SAMPLE_RATE < (samples : ℚ)) (hcyc : (6/19 : ℚ) ≤ cyc) :
    ((samples : ℤ) - jfloor ((tSec + cyc) * SAMPLE_RATE)).toNat <
      ((samples : ℤ) - jfloor (tSec * SAMPLE_RATE)).toNat := by
  have hfl : jfloor (tSec * SAMPLE_RATE) < (samples : ℤ) := by
    rw [jfloor, Int.floor_lt]
    exact_mod_cast hg
  have hstep : jfloor (tSec * SAMPLE_RATE) + 157 ≤ jfloor ((tSec + cyc) * SAMPLE_RATE) := by
    rw [jfloor, jfloor, Int.le_floor]
    have h1 : (⌊tSec * SAMPLE_RATE⌋ : ℚ) ≤ tSec * SAMPLE_RATE := Int.floor_le _
    have h2 : (157 : ℚ) ≤ cyc * SAMPLE_RATE := by
      have hm : (6/19 : ℚ) * SAMPLE_RATE ≤ cyc * SAMPLE_RATE :=
        mul_le_mul_of_nonneg_right hcyc (by norm_num [SAMPLE_RATE])
      have h3 : (157 : ℚ) ≤ 6/19 * SAMPLE_RATE := by norm_num [SAMPLE_RATE]
      linarith
    have hd : (tSec + cyc) * SAMPLE_RATE = tSec * SAMPLE_RATE + cyc * SAMPLE_RATE := by
      ring
    push_cast
    rw [hd]
    linarith
  omega

/-- An R-R step of at least `0.28` s strictly shrinks the AFib generator's
remaining-sample measure. -/
theorem afibBeats_step (samples : ℕ) (t rr : ℚ)
    (hg : t * SAMPLE_RATE < (samples : ℚ)) (hrr : (0.28 : ℚ) ≤ rr) :
    ((samples : ℤ) - jfloor ((t + rr) * SAMPLE_RATE)).toNat <
      ((samples : ℤ) - jfloor (t * SAMPLE_RATE)).toNat := by
  have hfl : jfloor (t * SAMPLE_RATE) < (samples : ℤ) := by
    rw [jfloor, Int.floor_lt]
    exact_mod_cast hg
  have hstep : jfloor (t * SAMPLE_RATE) + 140 ≤ jfloor ((t + rr) * SAMPLE_RATE) := by
    rw [jfloor, jfloor, Int.le_floor]
    have h1 : (⌊t * SAMPLE_RATE⌋ : ℚ) ≤ t * SAMPLE_RATE := Int.floor_le _
    have h2 : (140 : ℚ) ≤ rr * SAMPLE_RATE := by
      have hm : (0.28 : ℚ) * SAMPLE_RATE ≤ rr * SAMPLE_RATE :=
        mul_le_mul_of_nonneg_right hrr (by norm_num [SAMPLE_RATE])
      have h3 : (140 : ℚ) ≤ 0.28 * SAMPLE_RATE := by norm_num [SAMPLE_RATE]
      linarith
    have hd : (t + rr) * SAMPLE_RATE = t * SAMPLE_RATE + rr * SAMPLE_RATE := by
      ring
    push_cast
    rw [hd]
    linarith
  omega

/-- Each run of the regular beat loop records at most one mark per unit of
its remaining-sample measure: the loop terminates after finitely many
beats. -/
theorem regularBeats_len (μ : ℕ) :
    ∀ (M : JSMath) (samples : ℕ) (baseHr qrsWidthMs : ℚ) (showP showT : Bool)
      (baseAmp prMin prMax : ℚ) (arr : Buf) (tSec : ℚ) (r : Rng),
      ((samples : ℤ) - jfloor (tSec * SAMPLE_RATE)).toNat ≤ μ →
      (regularBeats M samples baseHr qrsWidthMs showP showT baseAmp prMin prMax
        arr tSec r).2.1.length ≤ μ := by
  induction μ with
  | zero =>
    intro M samples baseHr qrsWidthMs showP showT baseAmp prMin prMax arr tSec r hμ
    rw [regularBeats, dif_neg ?_]
    · simp
    · intro hg
      have hfl : jfloor (tSec * SAMPLE_RATE) < (samples : ℤ) := by
        rw [jfloor, Int.floor_lt]
        exact_mod_cast hg
      omega
  | succ μ ih =>
    intro M samples baseHr qrsWidthMs showP showT baseAmp prMin prMax arr tSec r hμ
    by_cases hg : tSec * SAMPLE_RATE < (samples : ℚ)
    · rw [regularBeats, dif_pos hg]
      dsimp only
      rw [List.length_cons]
      have hstep := regularBeats_step samples tSec (60 / regBeatHr baseHr r.val) hg
        (regBeatHr_bounds baseHr r.val).2.2
      exact Nat.succ_le_succ (ih M samples baseHr qrsWidthMs showP showT baseAmp
        prMin prMax _ _ _ (by omega))
    · rw [regularBeats, dif_neg hg]
      simp

/-- The AFib beat loop also records at most one mark per unit of measure. -/
theorem afibBeats_len (μ : ℕ) :
    ∀ (M : JSMath) (samples : ℕ) (meanRR : ℚ) (arr : Buf) (t : ℚ) (r : Rng),
      ((samples : ℤ) - jfloor (t * SAMPLE_RATE)).toNat ≤ μ →
      (afibBeats M samples meanRR arr t r).2.1.length ≤ μ := by
  induction μ with
  | zero =>
    intro M samples meanRR arr t r hμ
    rw [afibBeats, dif_neg ?_]
    · simp
    · intro hg
      have hfl : jfloor (t * SAMPLE_RATE) < (samples : ℤ) := by
        rw [jfloor, Int.floor_lt]
        exact_mod_cast hg
      omega
  | succ μ ih =>
    intro M samples meanRR arr t r hμ
    by_cases hg : t * SAMPLE_RATE < (samples : ℚ)
    · rw [afibBeats, dif_pos hg]
      dsimp only
      rw [List.length_cons]
      have hrr : (0.28 : ℚ) ≤
          clamp (randRangeVal (meanRR - 0.22) (meanRR + 0.22) r.val) 0.28 1.1 :=
        le_max_left _ _
      have hstep := afibBeats_step samples t
        (clamp (randRangeVal (meanRR - 0.22) (meanRR + 0.22) r.val) 0.28 1.1) hg hrr
      exact Nat.succ_le_succ (ih M samples meanRR _ _ _ (by omega))
    · rw [afibBeats, dif_neg hg]
      simp

/-- The VT cycle loop records at most one mark per unit of measure. -/
theorem vtLoop_len (μ : ℕ) :
    ∀ (M : JSMath) (samples : ℕ) (cs : ℤ) (hcs : 20 ≤ cs) (ce : ℤ)
      (arr : Buf) (r : Rng) (k : ℕ),
      ((samples : ℤ) - (k : ℤ) * cs).toNat ≤ μ →
      (vtLoop M samples cs hcs ce arr r k).2.1.length ≤ μ := by
  induction μ with
  | zero =>
    intro M samples cs hcs ce arr r k hμ
    rw [vtLoop, dif_neg (by omega)]
    simp
  | succ μ ih =>
    intro M samples cs hcs ce arr r k hμ
    by_cases hg : (k : ℤ) * cs < (samples : ℤ)
    · rw [vtLoop, dif_pos hg]
      dsimp only
      rw [List.length_cons]
      have hmul : ((k + 1 : ℕ) : ℤ) * cs = (k : ℤ) * cs + cs := by
        push_cast
        ring
      exact Nat.succ_le_succ (ih M samples cs hcs ce _ _ (k + 1) (by omega))
    · rw [vtLoop, dif_neg hg]
      simp

/-- With at least one sample to fill, the regular beat loop records at
least one mark (the first iteration always runs). -/
theorem regularBeats_ne_nil (M : JSMath) (samples : ℕ)
    (hs : 0 < samples) (baseHr qrsWidthMs : ℚ) (showP showT : Bool)
    (baseAmp prMin prMax : ℚ) (arr : Buf) (r : Rng) :
    (regularBeats M samples baseHr qrsWidthMs showP showT baseAmp prMin prMax
      arr 0 r).2.1 ≠ [] := by
  rw [regularBeats, dif_pos (by rw [zero_mul]; exact_mod_cast hs)]
  dsimp only
  simp

/-- With at least one sample to fill, the AFib beat loop records at least
one mark. -/
theorem afibBeats_ne_nil (M : JSMath) (samples : ℕ) (hs : 0 < samples)
    (meanRR : ℚ) (arr : Buf) (r : Rng) :
    (afibBeats M samples meanRR arr 0 r).2.1 ≠ [] := by
  rw [afibBeats, dif_pos (by rw [zero_mul]; exact_mod_cast hs)]
  dsimp only
  simp

/-- With at least one sample to fill, the VT cycle loop records at least
one mark. -/
theorem vtLoop_ne_nil (M : JSMath) (samples : ℕ) (hs : 0 < samples)
    (cs : ℤ) (hcs : 20 ≤ cs) (ce : ℤ) (arr : Buf) (r : Rng) :
    (vtLoop M samples cs hcs ce arr r 0).2.1 ≠ [] := by
  rw [vtLoop, dif_pos (by rw [Nat.cast_zero, zero_mul]; exact_mod_cast hs)]
  dsimp only
  simp

/-- `generateRegularECG` always records at least one beat over a
non-empty buffer, and never more than one per sample. -/
theorem generateRegularECG_marks (M : JSMath) (seconds hr qrsWidthMs : ℚ)
    (pWave tWave : Bool) (amp prMsMin prMsMax : ℚ) (r : Rng) :
    (0 < (jfloor (seconds * SAMPLE_RATE)).toNat →
      (generateRegularECG M seconds hr qrsWidthMs pWave tWave amp prMsMin
        prMsMax r).1.rPeaks ≠ []) ∧
    (generateRegularECG M seconds hr qrsWidthMs pWave tWave amp prMsMin
      prMsMax r).1.rPeaks.length ≤ (jfloor (seconds * SAMPLE_RATE)).toNat := by
  rw [generateRegularECG]
  dsimp only
  constructor
  · intro hs
    exact regularBeats_ne_nil M _ hs hr qrsWidthMs pWave tWave amp prMsMin prMsMax _ r
  · exact regularBeats_len _ M _ hr qrsWidthMs pWave tWave amp prMsMin prMsMax _ 0 r
      (by simp [jfloor])

/-- `generateSVT` returns the regular generator's marks unchanged. -/
theorem generateSVT_marks (M : JSMath) (seconds hr : ℚ) (r : Rng) :
    (0 < (jfloor (seconds * SAMPLE_RATE)).toNat →
      (generateSVT M seconds hr r).1.rPeaks ≠ []) ∧
    (generateSVT M seconds hr r).1.rPeaks.length ≤
      (jfloor (seconds * SAMPLE_RATE)).toNat := by
  rw [generateSVT]
  dsimp only
  exact generateRegularECG_marks M seconds hr 80 false true 0.95 60 120 r

/-- `generateAfibRvr` always records at least one beat over a non-empty
buffer, and never more than one per sample. -/
theorem generateAfibRvr_marks (M : JSMath) (seconds meanHr : ℚ) (r : Rng) :
    (0 < (jfloor (seconds * SAMPLE_RATE)).toNat →
      (generateAfibRvr M seconds meanHr r).1.rPeaks ≠ []) ∧
    (generateAfibRvr M seconds meanHr r).1.rPeaks.length ≤
      (jfloor (seconds * SAMPLE_RATE)).toNat := by
  rw [generateAfibRvr]
  dsimp only
  constructor
  · intro hs
    exact afibBeats_ne_nil M _ hs _ _ _
  · exact afibBeats_len _ M _ _ _ 0 _ (by simp [jfloor])

/-- `generateVT` always records at least one beat over a non-empty buffer,
and never more than one per sample. -/
theorem generateVT_marks (M : JSMath) (seconds hr : ℚ) (r : Rng) :
    (0 < (jfloor (seconds * SAMPLE_RATE)).toNat →
      (generateVT M seconds hr r).1.rPeaks ≠ []) ∧
    (generateVT M seconds hr r).1.rPeaks.length ≤
      (jfloor (seconds * SAMPLE_RATE)).toNat := by
  rw [generateVT]
  dsimp only
  constructor
  · intro hs
    exact vtLoop_ne_nil M _ hs _ _ _ _ _
  · exact vtLoop_len _ M _ _ _ _ _ _ 0 (by simp)

/-- `generateVF` never records marks. -/
theorem generateVF_marks (M : JSMath) (seconds : ℚ) (r : Rng) :
    (generateVF M seconds r).1.rPeaks = [] := rfl

/-- `generateAsystole` never records marks. -/
theorem generateAsystole_marks (seconds : ℚ) (r : Rng) :
    (generateAsystole seconds r).1.rPeaks = [] := rfl

/-- C6: for every random outcome, `synthesize` for VF and for ASYSTOLE
returns an empty depolarizationMarks (rPeaks) sequence, while every other
rhythm class (SINUS, SVT, AFIB_RVR, VT_PULSE, PVT, PEA_NARROW) returns a
non-empty one. -/
theorem synthesize_marks_empty_exactly_vf_asystole (M : JSMath) (r : Rng) :
    (synthesize M .vf r).rPeaks = [] ∧
    (synthesize M .asystole r).rPeaks = [] ∧
    (synthesize M .sinus r).rPeaks ≠ [] ∧
    (synthesize M .svt r).rPeaks ≠ [] ∧
    (synthesize M .afib_rvr r).rPeaks ≠ [] ∧
    (synthesize M .vt_pulse r).rPeaks ≠ [] ∧
    (synthesize M .pvt r).rPeaks ≠ [] ∧
    (synthesize M .pea_narrow r).rPeaks ≠ [] := by
  have hs : 0 < (jfloor (BUFFER_SECONDS * SAMPLE_RATE)).toNat := by
    rw [bufferSamples_eq]
    norm_num
  refine ⟨rfl, rfl, ?_, ?_, ?_, ?_, ?_, ?_⟩
  · exact (generateRegularECG_marks M BUFFER_SECONDS _ 85 true true 1.0 120 200
      r.next).1 hs
  · exact (generateSVT_marks M BUFFER_SECONDS _ r.next).1 hs
  · exact (generateAfibRvr_marks M BUFFER_SECONDS _ r.next).1 hs
  · exact (generateVT_marks M BUFFER_SECONDS _ r.next).1 hs
  · exact (generateVT_marks M BUFFER_SECONDS 170 r).1 hs
  · exact (generateRegularECG_marks M BUFFER_SECONDS 50 85 true true 0.85 140 220
      r).1 hs

/-- C7: synthesis always terminates, because the per-beat loops have a
positive minimum cycle: the per-beat heart rate is clamped into
`[45, 190]` bpm, so each regular cycle lasts at least `6/19` s (no
division by zero), the VT cycle sample count is clamped to at least 20,
and consequently every rhythm's synthesis records at most one mark per
buffer sample — finitely many beats. -/
theorem synthesis_terminates_with_clamped_cycles :
    (∀ baseHr u : ℚ, 45 ≤ regBeatHr baseHr u ∧ regBeatHr baseHr u ≤ 190 ∧
      (6/19 : ℚ) ≤ 60 / regBeatHr baseHr u) ∧
    (∀ hr : ℚ, 20 ≤ vtCycleSamples hr) ∧
    (∀ (M : JSMath) (rhythm : RhythmId) (r : Rng),
      (synthesize M rhythm r).rPeaks.length ≤ 90000) := by
  refine ⟨regBeatHr_bounds, vtCycleSamples_ge, ?_⟩
  intro M rhythm r
  have hb := le_of_eq bufferSamples_eq
  cases rhythm with
  | sinus =>
    exact le_trans (generateRegularECG_marks M BUFFER_SECONDS _ 85 true true 1.0
      120 200 r.next).2 hb
  | svt => exact le_trans (generateSVT_marks M BUFFER_SECONDS _ r.next).2 hb
  | afib_rvr => exact le_trans (generateAfibRvr_marks M BUFFER_SECONDS _ r.next).2 hb
  | vt_pulse => exact le_trans (generateVT_marks M BUFFER_SECONDS _ r.next).2 hb
  | pvt => exact le_trans (generateVT_marks M BUFFER_SECONDS 170 r).2 hb
  | vf => simp [synthesize, generateVF_marks]
  | asystole => simp [synthesize, generateAsystole_marks]
  | pea_narrow =>
    exact le_trans (generateRegularECG_marks M BUFFER_SECONDS 50 85 true true 0.85
      140 220 r).2 hb

end CardiacSim
